import Mathlib

/-!
Shallow embedding of the device-capability negotiation and selection
pipeline of `src/VulkanTest/main.cpp` (class `HelloTriangleApplication`),
together with proofs of the specification's testable properties.

Driver responses (available layers/extensions, queue-family tables,
surface-support answers, surface formats, presentation modes) are modelled
as explicit data carried by records, so every function of the source
becomes a pure Lean function of that data.
-/

namespace VulkanTest

/-- Bootstrap failure conditions (spec §7); each corresponds to a
`std::runtime_error` thrown in `main.cpp`. -/
inductive VkError where
  | UnsupportedLayer            -- "Validation layer requested but not available"
  | UnsupportedExtension        -- "Extension requested but not available"
  | ContextCreationFailed       -- "Failed to create instance!"
  | DebugSinkSetupFailed        -- "Failed to set up debug callback!"
  | SurfaceCreationFailed       -- "Failed to create window surface."
  | NoDeviceDetected            -- "Failed to detect GPUs with Vulkan support."
  | NoSuitableDevice            -- "Failed to find a suitable GPU"
  | LogicalDeviceCreationFailed -- "Failed to create logical device"
  deriving DecidableEq, Repr

/-- `VK_QUEUE_GRAPHICS_BIT` of the Vulkan headers. -/
def VK_QUEUE_GRAPHICS_BIT : Nat := 1

/-- `VK_PHYSICAL_DEVICE_TYPE_DISCRETE_GPU` of the Vulkan headers. -/
def VK_PHYSICAL_DEVICE_TYPE_DISCRETE_GPU : Nat := 2

/-- `VK_KHR_SWAPCHAIN_EXTENSION_NAME` of the Vulkan headers. -/
def VK_KHR_SWAPCHAIN_EXTENSION_NAME : String := "VK_KHR_swapchain"

/-- `VK_EXT_DEBUG_REPORT_EXTENSION_NAME` of the Vulkan headers. -/
def VK_EXT_DEBUG_REPORT_EXTENSION_NAME : String := "VK_EXT_debug_report"

/-- `requestedLayers` (main.cpp:18): validation layers to be used. -/
def requestedLayers : List String := ["VK_LAYER_LUNARG_standard_validation"]

/-- `requestedDeviceExtensions` (main.cpp:23): device extensions to be used. -/
def requestedDeviceExtensions : List String := [VK_KHR_SWAPCHAIN_EXTENSION_NAME]

/-- `enableValidationLayers` (main.cpp:29): `DEBUG` is defined at
main.cpp:1, so validation layers are enabled. -/
def enableValidationLayers : Bool := true

/-- `QueueFamilyIndices` (main.cpp:63): `-1` is the sentinel for an
unresolved index, exactly as in the source. -/
structure QueueFamilyIndices where
  graphicsFamily : Int := -1
  presentFamily : Int := -1
  deriving DecidableEq, Repr

/-- `QueueFamilyIndices::isComplete` (main.cpp:67). -/
def QueueFamilyIndices.isComplete (q : QueueFamilyIndices) : Bool :=
  decide (0 ≤ q.graphicsFamily) && decide (0 ≤ q.presentFamily)

/-- One entry of the queue-family table the driver reports for a device
(`VkQueueFamilyProperties` plus the per-family answer of
`vkGetPhysicalDeviceSurfaceSupportKHR` for the target surface). -/
structure QueueFamily where
  queueCount : Nat
  queueFlags : Nat
  presentSupport : Bool
  deriving DecidableEq, Repr

/-- The graphics condition of the loop at main.cpp:322:
`queueFamily.queueCount > 0 && queueFamily.queueFlags & VK_QUEUE_GRAPHICS_BIT`. -/
def supportsGraphics (f : QueueFamily) : Bool :=
  decide (0 < f.queueCount) && decide (f.queueFlags &&& VK_QUEUE_GRAPHICS_BIT ≠ 0)

/-- The presentation condition of the loop at main.cpp:325:
`queueFamily.queueCount > 0 && presentSupport`. -/
def supportsPresent (f : QueueFamily) : Bool :=
  decide (0 < f.queueCount) && f.presentSupport

/-- The loop body of `findQueueFamilies` (main.cpp:321-328): `i` is the
running index, `g`/`p` the current `indices.graphicsFamily` /
`indices.presentFamily`; the loop breaks as soon as `isComplete`. -/
def findQueueFamiliesGo : List QueueFamily → Nat → Int → Int → QueueFamilyIndices
  | [], _, g, p => ⟨g, p⟩
  | f :: rest, i, g, p =>
    let g' := if supportsGraphics f then (i : Int) else g
    let p' := if supportsPresent f then (i : Int) else p
    if (QueueFamilyIndices.mk g' p').isComplete then ⟨g', p'⟩
    else findQueueFamiliesGo rest (i + 1) g' p'

/-- `findQueueFamilies` (main.cpp:308): scans the driver-reported
queue-family table in order, starting from the sentinel pair `(-1, -1)`. -/
def findQueueFamilies (queueFamilies : List QueueFamily) : QueueFamilyIndices :=
  findQueueFamiliesGo queueFamilies 0 (-1) (-1)

/-- `VkSurfaceFormatKHR`. -/
structure VkSurfaceFormatKHR where
  format : Nat
  colorSpace : Nat
  deriving DecidableEq, Repr

/-- The fields of `VkSurfaceCapabilitiesKHR` the program reads. -/
structure VkSurfaceCapabilitiesKHR where
  minImageCount : Nat := 0
  maxImageCount : Nat := 0
  currentExtentW : Nat := 0
  currentExtentH : Nat := 0
  deriving DecidableEq, Repr

/-- `SwapChainSupportDetails` (main.cpp:73). -/
structure SwapChainSupportDetails where
  capabilities : VkSurfaceCapabilitiesKHR
  formats : List VkSurfaceFormatKHR
  presentModes : List Nat
  deriving DecidableEq, Repr

/-- The fields of `VkPhysicalDeviceFeatures` the program reads
(main.cpp:427 reads `geometryShader`). -/
structure VkPhysicalDeviceFeatures where
  geometryShader : Bool := false
  deriving DecidableEq, Repr

/-- The fields of `VkPhysicalDeviceLimits` the program reads. -/
structure VkPhysicalDeviceLimits where
  maxImageDimension2D : Nat
  deriving DecidableEq, Repr

/-- The fields of `VkPhysicalDeviceProperties` the program reads. -/
structure VkPhysicalDeviceProperties where
  deviceID : Nat
  deviceType : Nat
  limits : VkPhysicalDeviceLimits
  deriving DecidableEq, Repr

/-- One enumerated physical device together with every driver response the
pipeline queries about it. -/
structure PhysicalDevice where
  properties : VkPhysicalDeviceProperties
  features : VkPhysicalDeviceFeatures
  queueFamilies : List QueueFamily
  availableExtensions : List String
  surfaceCapabilities : VkSurfaceCapabilitiesKHR := {}
  surfaceFormats : List VkSurfaceFormatKHR
  surfacePresentModes : List Nat
  deriving DecidableEq, Repr

/-- `checkPhysicalDeviceExtensionSupport` (main.cpp:366): builds the
`std::set<std::string>` of requested extensions (construction
deduplicates), erases every available extension, and answers whether the
set is empty. Parametrised over the requested list, which the source reads
from the constant `requestedDeviceExtensions`. -/
def checkPhysicalDeviceExtensionSupport
    (requested availableExtensions : List String) : Bool :=
  (availableExtensions.foldl (fun s a => s.erase a) requested.dedup).isEmpty

/-- `querySwapChainSupport` (main.cpp:380): three read-only driver
queries, packaged. -/
def querySwapChainSupport (d : PhysicalDevice) : SwapChainSupportDetails :=
  ⟨d.surfaceCapabilities, d.surfaceFormats, d.surfacePresentModes⟩

/-- `ratePhysicalDevice` (main.cpp:407): accumulates the positive score
first (discrete-GPU bonus at main.cpp:421, 2D-image-dimension limit at
main.cpp:424), then returns 0 on any failed hard requirement
(main.cpp:427-437). -/
def ratePhysicalDevice (d : PhysicalDevice) : Nat :=
  let score :=
    (if d.properties.deviceType = VK_PHYSICAL_DEVICE_TYPE_DISCRETE_GPU then 1000 else 0)
    + d.properties.limits.maxImageDimension2D
  if !d.features.geometryShader then 0
  else if !(findQueueFamilies d.queueFamilies).isComplete then 0
  else if !checkPhysicalDeviceExtensionSupport requestedDeviceExtensions d.availableExtensions then 0
  else if (querySwapChainSupport d).formats.isEmpty
          || (querySwapChainSupport d).presentModes.isEmpty then 0
  else score

/-- Insertion into `std::multimap<int, VkPhysicalDevice>` (main.cpp:469):
a new pair goes after every pair whose key compares less than *or
equivalent to* its own (upper-bound insertion), which is what keeps
equal-key pairs in insertion order. -/
def multimapInsert (p : Nat × PhysicalDevice) :
    List (Nat × PhysicalDevice) → List (Nat × PhysicalDevice)
  | [] => [p]
  | q :: rest => if q.1 ≤ p.1 then q :: multimapInsert p rest else p :: q :: rest

/-- `pickPhysicalDevice` (main.cpp:443): throws `NoDeviceDetected` when
enumeration is empty (main.cpp:451); otherwise scores every device in
enumeration order into the multimap and inspects `rbegin()` — the entry
with the greatest key, and among equal greatest keys the last inserted
(main.cpp:475-480). The unreachable `none` branch mirrors the fact that
the multimap of a nonempty enumeration is nonempty. -/
def pickPhysicalDevice (physicalDevices : List PhysicalDevice) :
    Except VkError PhysicalDevice :=
  if physicalDevices.isEmpty then .error .NoDeviceDetected
  else
    let available := physicalDevices.foldl
      (fun m d => multimapInsert (ratePhysicalDevice d, d) m) []
    match available.getLast? with
    | some (s, d) => if 0 < s then .ok d else .error .NoSuitableDevice
    | none => .error .NoSuitableDevice

/-- `VkDeviceQueueCreateInfo` as filled at main.cpp:499-503: one queue at
priority `1.0` (the literal constant, no float arithmetic occurs). -/
structure VkDeviceQueueCreateInfo where
  queueFamilyIndex : Int
  queueCount : Nat
  queuePriority : Rat
  deriving DecidableEq, Repr

/-- `std::set<int> uniqueQueueFamilies = { indices.graphicsFamily,
indices.presentFamily }` (main.cpp:493): the set deduplicates and iterates
in ascending order. -/
def uniqueQueueFamilies (indices : QueueFamilyIndices) : List Int :=
  if indices.graphicsFamily = indices.presentFamily then [indices.graphicsFamily]
  else if indices.graphicsFamily < indices.presentFamily then
    [indices.graphicsFamily, indices.presentFamily]
  else [indices.presentFamily, indices.graphicsFamily]

/-- Everything `createLogicalDevice` hands to `vkCreateDevice` plus the
two queue handles it retrieves afterwards; a queue handle is the
`(familyIndex, queueIndex)` pair passed to `vkGetDeviceQueue`. -/
structure LogicalDeviceCreation where
  queueCreateInfos : List VkDeviceQueueCreateInfo
  enabledFeatures : VkPhysicalDeviceFeatures
  enabledExtensionNames : List String
  enabledLayerNames : List String
  graphicsQueue : Int × Nat
  presentQueue : Int × Nat
  deriving DecidableEq, Repr

/-- `createLogicalDevice` (main.cpp:485), from the resolved
`QueueFamilyIndices` of the chosen device: one `VkDeviceQueueCreateInfo`
per element of `uniqueQueueFamilies` with `queueCount = 1` and priority
`1.0` (main.cpp:495-505), default-initialised `VkPhysicalDeviceFeatures`
(main.cpp:508), the requested device extensions and layers
(main.cpp:519-526), and the two `vkGetDeviceQueue` calls at queue index 0
(main.cpp:533-534). -/
def createLogicalDevice (indices : QueueFamilyIndices) : LogicalDeviceCreation where
  queueCreateInfos :=
    (uniqueQueueFamilies indices).map (fun queueFamily => ⟨queueFamily, 1, 1⟩)
  enabledFeatures := {}
  enabledExtensionNames := requestedDeviceExtensions
  enabledLayerNames := if enableValidationLayers then requestedLayers else []
  graphicsQueue := (indices.graphicsFamily, 0)
  presentQueue := (indices.presentFamily, 0)

/-- `checkValidationLayerSupport` (main.cpp:129): every requested layer
must appear (by `strcmp`) among the driver's available layers; the source
returns `false` at the first missing layer. -/
def checkValidationLayerSupport (availableLayers : List String) : Bool :=
  requestedLayers.all (fun requestedLayer =>
    availableLayers.any (fun availableLayer => availableLayer = requestedLayer))

/-- The instance extensions `getRequestedExtensions` requests
(main.cpp:183-196): whatever GLFW reports as mandatory, plus the debug
report extension when validation layers are enabled. -/
def requestedInstanceExtensions (glfwExtensions : List String) : List String :=
  glfwExtensions ++ (if enableValidationLayers then [VK_EXT_DEBUG_REPORT_EXTENSION_NAME] else [])

/-- `getRequestedExtensions` (main.cpp:166): throws at the first requested
instance extension missing from the driver's available list
(main.cpp:211-214), otherwise returns the requested list. -/
def getRequestedExtensions (availableExtensions glfwExtensions : List String) :
    Except VkError (List String) :=
  let req := requestedInstanceExtensions glfwExtensions
  if req.all (fun r => availableExtensions.any (fun a => a = r)) then .ok req
  else .error .UnsupportedExtension

/-- The driver/windowing responses `createInstance` consumes. -/
structure InstanceEnv where
  availableLayers : List String
  availableInstanceExtensions : List String
  glfwRequiredExtensions : List String
  vkCreateInstanceSucceeds : Bool
  deriving DecidableEq, Repr

/-- `createInstance` (main.cpp:239): layer check first (main.cpp:242),
then the extension check inside `getRequestedExtensions` (main.cpp:271),
and only then the `vkCreateInstance` call (main.cpp:281). The boolean of
the result records whether the `vkCreateInstance` call was issued. -/
def createInstance (env : InstanceEnv) : Except VkError (List String) × Bool :=
  if enableValidationLayers && !checkValidationLayerSupport env.availableLayers then
    (.error .UnsupportedLayer, false)
  else
    match getRequestedExtensions env.availableInstanceExtensions env.glfwRequiredExtensions with
    | .error e => (.error e, false)
    | .ok exts =>
      if env.vkCreateInstanceSucceeds then (.ok exts, true)
      else (.error .ContextCreationFailed, true)

/-- The four owned resources of the bootstrap sequence (the physical
device is driver-owned and never released). -/
inductive Resource where
  | context
  | debugSink
  | surface
  | logicalDevice
  deriving DecidableEq, Repr

/-- Acquisition order of `initVulkan` (main.cpp:612-625): `createInstance`,
`setupDebugCallback`, `createSurface`, (`pickPhysicalDevice` is a
read-only selection), `createLogicalDevice`. -/
def initVulkanAcquisitionOrder : List Resource :=
  [.context, .debugSink, .surface, .logicalDevice]

/-- Release order of `cleanup` (main.cpp:639-644): `vkDestroyDevice`,
`DestroyDebugReportCallbackEXT`, `vkDestroySurfaceKHR`,
`vkDestroyInstance`. -/
def cleanupReleaseOrder : List Resource :=
  [.logicalDevice, .debugSink, .surface, .context]

/-! ### Specification-level definitions

Written from the spec's words, to be compared with the embeddings above. -/

/-- From the spec's words: the *first* family index satisfying a
predicate, `-1` when none does (spec §4.2 claims the resolver assigns each
field this index). -/
def firstQualifyingIdx (p : QueueFamily → Bool) (l : List QueueFamily) : Int :=
  match l.findIdx? p with
  | some k => (k : Int)
  | none => -1

/-- The last index (in scan order) satisfying a predicate, threaded as an
accumulator exactly as repeated overwriting leaves it; `i` is the index of
the head of `l` and `a` the value carried in from earlier entries. -/
def lastQualifyingIdxFrom (p : QueueFamily → Bool) :
    List QueueFamily → Nat → Int → Int
  | [], _, a => a
  | f :: rest, i, a => lastQualifyingIdxFrom p rest (i + 1) (if p f then (i : Int) else a)

/-- From the spec's words ("scanning stops as soon as both fields are
populated"): the number of families the scan examines, given whether a
graphics / presentation match has already been seen. -/
def scanLength : List QueueFamily → Bool → Bool → Nat
  | [], _, _ => 0
  | f :: rest, hasG, hasP =>
    let hasG' := hasG || supportsGraphics f
    let hasP' := hasP || supportsPresent f
    if hasG' && hasP' then 1 else 1 + scanLength rest hasG' hasP'

/-- The resolver as the amended spec describes it: over the scanned prefix
(short-circuited once both predicates have matched), each field holds the
*last* qualifying index, `-1` when none qualifies. -/
def specResolveQueueFamilies (l : List QueueFamily) : QueueFamilyIndices :=
  let n := scanLength l false false
  ⟨lastQualifyingIdxFrom supportsGraphics (l.take n) 0 (-1),
   lastQualifyingIdxFrom supportsPresent (l.take n) 0 (-1)⟩

/-- Maximum score over an enumeration (`rbegin()->first` of the score
multimap), 0 for an empty enumeration. -/
def maxScore (physicalDevices : List PhysicalDevice) : Nat :=
  physicalDevices.foldl (fun a d => max a (ratePhysicalDevice d)) 0

/-- From the spec's design notes (§9): best-so-far selection with a `≥`
replacement rule — a later pair replaces a strictly-equal maximum. Used to
characterise what `rbegin()` of the score multimap yields. -/
def selectStep (t : Nat × PhysicalDevice) (d : PhysicalDevice) : Nat × PhysicalDevice :=
  if t.1 ≤ ratePhysicalDevice d then (ratePhysicalDevice d, d) else t

/-- The conjunction of the four hard requirements of the Candidate Scorer
(spec §4.5 steps 1-4, main.cpp:427-437). -/
def meetsHardRequirements (d : PhysicalDevice) : Bool :=
  d.features.geometryShader
  && (findQueueFamilies d.queueFamilies).isComplete
  && checkPhysicalDeviceExtensionSupport requestedDeviceExtensions d.availableExtensions
  && !(querySwapChainSupport d).formats.isEmpty
  && !(querySwapChainSupport d).presentModes.isEmpty

/-! ### Concrete devices for scenarios and witnesses -/

/-- A queue family with one queue supporting both graphics and
presentation. -/
def familyBoth : QueueFamily := ⟨1, 1, true⟩

/-- A queue family with one queue supporting graphics but not
presentation. -/
def familyGraphicsOnly : QueueFamily := ⟨1, 1, false⟩

/-- A queue family reporting zero queues despite advertising graphics and
presentation capability. -/
def familyZeroCount : QueueFamily := ⟨0, 1, true⟩

/-- Spec §8 scenario device A: discrete, `maxImageDimension2D = 8192`,
all hard requirements met. -/
def deviceA : PhysicalDevice where
  properties := ⟨1, VK_PHYSICAL_DEVICE_TYPE_DISCRETE_GPU, ⟨8192⟩⟩
  features := ⟨true⟩
  queueFamilies := [familyBoth]
  availableExtensions := [VK_KHR_SWAPCHAIN_EXTENSION_NAME]
  surfaceFormats := [⟨44, 0⟩]
  surfacePresentModes := [2]

/-- Spec §8 scenario device B: integrated (type 1),
`maxImageDimension2D = 16384`, all hard requirements met. -/
def deviceB : PhysicalDevice where
  properties := ⟨2, 1, ⟨16384⟩⟩
  features := ⟨true⟩
  queueFamilies := [familyBoth]
  availableExtensions := [VK_KHR_SWAPCHAIN_EXTENSION_NAME]
  surfaceFormats := [⟨44, 0⟩]
  surfacePresentModes := [2]

/-- A copy of `deviceA` distinguished only by its device ID, so that two
enumerated devices tie at the same score. -/
def deviceA2 : PhysicalDevice :=
  { deviceA with properties := ⟨3, VK_PHYSICAL_DEVICE_TYPE_DISCRETE_GPU, ⟨8192⟩⟩ }

/-- A device failing the geometry-shader hard requirement but passing all
others. -/
def deviceNoGeom : PhysicalDevice :=
  { deviceA with features := ⟨false⟩ }

/-! ### Queue Family Resolver lemmas -/

theorem decide_nonneg_update (b : Bool) (i : Nat) (g : Int) :
    decide (0 ≤ (if b then (i : Int) else g)) = (decide (0 ≤ g) || b) := by
  cases b <;> simp [Int.natCast_nonneg]

theorem isComplete_update (f : QueueFamily) (i : Nat) (g p : Int) :
    (QueueFamilyIndices.mk (if supportsGraphics f then (i : Int) else g)
      (if supportsPresent f then (i : Int) else p)).isComplete
    = ((decide (0 ≤ g) || supportsGraphics f) && (decide (0 ≤ p) || supportsPresent f)) := by
  unfold QueueFamilyIndices.isComplete
  rw [decide_nonneg_update, decide_nonneg_update]

/-- The loop of `findQueueFamilies`, started at index `i` with carried
values `g`, `p`, leaves each field holding the last qualifying index of
the scanned (short-circuited) prefix. -/
theorem findQueueFamiliesGo_spec (l : List QueueFamily) : ∀ (i : Nat) (g p : Int),
    findQueueFamiliesGo l i g p =
      ⟨lastQualifyingIdxFrom supportsGraphics
          (l.take (scanLength l (decide (0 ≤ g)) (decide (0 ≤ p)))) i g,
        lastQualifyingIdxFrom supportsPresent
          (l.take (scanLength l (decide (0 ≤ g)) (decide (0 ≤ p)))) i p⟩ := by
  induction l with
  | nil =>
    intro i g p
    simp [findQueueFamiliesGo, scanLength, lastQualifyingIdxFrom]
  | cons f rest ih =>
    intro i g p
    simp only [findQueueFamiliesGo, scanLength]
    rw [isComplete_update]
    cases hb : ((decide (0 ≤ g) || supportsGraphics f) && (decide (0 ≤ p) || supportsPresent f)) with
    | true =>
      simp only [if_pos rfl, List.take_succ_cons, List.take_zero]
      simp [lastQualifyingIdxFrom]
    | false =>
      simp only [Bool.false_eq_true, if_false]
      rw [ih (i + 1) (if supportsGraphics f then (i : Int) else g)
        (if supportsPresent f then (i : Int) else p)]
      rw [decide_nonneg_update, decide_nonneg_update]
      simp [lastQualifyingIdxFrom, List.take_succ_cons, Nat.add_comm 1]

/-- Whenever `lastQualifyingIdxFrom` answers something other than its
carried-in value, that answer is the (offset) index of an entry satisfying
the predicate. -/
theorem lastQualifyingIdxFrom_assign (q : QueueFamily → Bool) (l : List QueueFamily) :
    ∀ (i : Nat) (a : Int),
    lastQualifyingIdxFrom q l i a = a ∨
      ∃ k, ∃ h : k < l.length,
        lastQualifyingIdxFrom q l i a = ((i + k : Nat) : Int) ∧ q (l.get ⟨k, h⟩) = true := by
  induction l with
  | nil => intro i a; exact Or.inl rfl
  | cons f rest ih =>
    intro i a
    simp only [lastQualifyingIdxFrom]
    rcases ih (i + 1) (if q f then (i : Int) else a) with h | ⟨k, hk, heq, hq⟩
    · by_cases hf : q f = true
      · refine Or.inr ⟨0, Nat.succ_pos _, ?_, by simpa using hf⟩
        rw [h]; simp [hf]
      · left; rw [h]; simp [hf]
    · refine Or.inr ⟨k + 1, Nat.succ_lt_succ hk, ?_, hq⟩
      rw [heq]; congr 1; omega

/-- Indexing into a prefix agrees with indexing into the full list. -/
theorem get_take_eq_get (l : List QueueFamily) (n k : Nat) (hk : k < (l.take n).length)
    (hl : k < l.length) : (l.take n).get ⟨k, hk⟩ = l.get ⟨k, hl⟩ := by
  have hn : k < n := lt_of_lt_of_le hk (by rw [List.length_take]; exact min_le_left _ _)
  have h1 : (l.take n)[k]? = l[k]? := List.getElem?_take_of_lt hn
  rw [List.getElem?_eq_getElem (by simp at hk ⊢; exact hk), List.getElem?_eq_getElem hl] at h1
  simp only [Option.some.injEq] at h1
  simp [h1]

/-- A family satisfying either scan predicate reports a positive queue
count. -/
theorem queueCount_pos_of_supports (f : QueueFamily) :
    (supportsGraphics f = true → 0 < f.queueCount) ∧
    (supportsPresent f = true → 0 < f.queueCount) := by
  constructor
  · intro h
    unfold supportsGraphics at h
    exact of_decide_eq_true (Bool.and_elim_left h)
  · intro h
    unfold supportsPresent at h
    exact of_decide_eq_true (Bool.and_elim_left h)

/-- C2, counterexample: with family 0 graphics-only and family 1
supporting both roles, the first index satisfying the graphics predicate
is 0, yet the resolver leaves `graphicsFamily = 1` — the later qualifying
family overwrote the earlier assignment, refuting "assigns
`graphicsFamily` to the first family index satisfying the graphics
predicate". -/
theorem findQueueFamilies_not_first_qualifying :
    firstQualifyingIdx supportsGraphics [familyGraphicsOnly, familyBoth] = 0 ∧
    (findQueueFamilies [familyGraphicsOnly, familyBoth]).graphicsFamily = 1 := by
  decide

/-- C2 amended: the Queue Family Resolver scans families in order and
stops as soon as both fields are populated, never considering any later
family; over that scanned prefix each field ends up holding the *last*
(not the first) family index satisfying its predicate, because every
qualifying family overwrites the previous assignment, and a single family
may populate both fields. -/
theorem findQueueFamilies_eq_specResolve (l : List QueueFamily) :
    findQueueFamilies l = specResolveQueueFamilies l := by
  unfold findQueueFamilies specResolveQueueFamilies
  rw [findQueueFamiliesGo_spec]
  rfl

/-- C10: a queue family reporting zero queues is never assigned to either
field, even if its capability bitmask advertises graphics or the driver
reports presentation support for it. -/
theorem findQueueFamilies_ignores_zero_count_families
    (queueFamilies : List QueueFamily) (k : Nat) (h : k < queueFamilies.length)
    (h0 : (queueFamilies.get ⟨k, h⟩).queueCount = 0) :
    (findQueueFamilies queueFamilies).graphicsFamily ≠ (k : Int) ∧
    (findQueueFamilies queueFamilies).presentFamily ≠ (k : Int) := by
  unfold findQueueFamilies
  rw [findQueueFamiliesGo_spec]
  dsimp only
  constructor
  · rcases lastQualifyingIdxFrom_assign supportsGraphics
        (queueFamilies.take (scanLength queueFamilies (decide ((0:Int) ≤ -1))
          (decide ((0:Int) ≤ -1)))) 0 (-1) with he | ⟨j, hj, heq, hq⟩
    · rw [he]; intro hcontra; omega
    · rw [heq]; intro hcontra
      have hjk : j = k := by omega
      subst hjk
      rw [get_take_eq_get _ _ _ _ h] at hq
      have := (queueCount_pos_of_supports _).1 hq
      omega
  · rcases lastQualifyingIdxFrom_assign supportsPresent
        (queueFamilies.take (scanLength queueFamilies (decide ((0:Int) ≤ -1))
          (decide ((0:Int) ≤ -1)))) 0 (-1) with he | ⟨j, hj, heq, hq⟩
    · rw [he]; intro hcontra; omega
    · rw [heq]; intro hcontra
      have hjk : j = k := by omega
      subst hjk
      rw [get_take_eq_get _ _ _ _ h] at hq
      have := (queueCount_pos_of_supports _).2 hq
      omega

/-- C10 witness: the resolver leaves both fields unresolved for a lone
zero-queue-count family that advertises graphics and presentation. -/
theorem findQueueFamilies_ignores_zero_count_families_witness :
    (0 < ([familyZeroCount] : List QueueFamily).length) ∧
    ([familyZeroCount].get ⟨0, Nat.one_pos⟩).queueCount = 0 ∧
    (findQueueFamilies [familyZeroCount]).graphicsFamily ≠ ((0 : Nat) : Int) ∧
    (findQueueFamilies [familyZeroCount]).presentFamily ≠ ((0 : Nat) : Int) :=
  ⟨Nat.one_pos, by decide,
    findQueueFamilies_ignores_zero_count_families [familyZeroCount] 0 Nat.one_pos (by decide)⟩

/-! ### Device Selector lemmas -/

theorem getLast?_cons_of_ne_nil {α : Type} (a : α) (l : List α) (h : l ≠ []) :
    (a :: l).getLast? = l.getLast? := by
  obtain ⟨x, xs, rfl⟩ := List.exists_cons_of_ne_nil h
  simp

theorem multimapInsert_ne_nil (p : Nat × PhysicalDevice) (l : List (Nat × PhysicalDevice)) :
    multimapInsert p l ≠ [] := by
  cases l with
  | nil => simp [multimapInsert]
  | cons q rest => unfold multimapInsert; split <;> simp

theorem mem_multimapInsert (x p : Nat × PhysicalDevice) (l : List (Nat × PhysicalDevice)) :
    x ∈ multimapInsert p l ↔ x = p ∨ x ∈ l := by
  induction l with
  | nil => simp [multimapInsert]
  | cons q rest ih =>
    unfold multimapInsert
    split
    · simp only [List.mem_cons, ih]
      tauto
    · simp only [List.mem_cons]

theorem multimapInsert_sorted (p : Nat × PhysicalDevice) (l : List (Nat × PhysicalDevice))
    (h : List.Pairwise (fun a b => a.1 ≤ b.1) l) :
    List.Pairwise (fun a b => a.1 ≤ b.1) (multimapInsert p l) := by
  induction l with
  | nil => simp [multimapInsert]
  | cons q rest ih =>
    rcases List.pairwise_cons.mp h with ⟨hq, hrest⟩
    unfold multimapInsert
    split
    case isTrue hle =>
      refine List.pairwise_cons.mpr ⟨?_, ih hrest⟩
      intro x hx
      rcases (mem_multimapInsert x p rest).mp hx with rfl | hx
      · exact hle
      · exact hq x hx
    case isFalse hgt =>
      refine List.pairwise_cons.mpr ⟨?_, h⟩
      intro x hx
      rcases List.mem_cons.mp hx with rfl | hx
      · exact le_of_lt (lt_of_not_le hgt)
      · exact le_trans (le_of_lt (lt_of_not_le hgt)) (hq x hx)

/-- Upper-bound insertion into a key-sorted list leaves as final element
the old final element or the inserted pair, the latter exactly when its
key is at least the old final key: this is the last-wins-on-ties rule. -/
theorem multimapInsert_getLast (p : Nat × PhysicalDevice) (l : List (Nat × PhysicalDevice))
    (h : List.Pairwise (fun a b => a.1 ≤ b.1) l) :
    (multimapInsert p l).getLast? =
      some (match l.getLast? with
        | none => p
        | some t => if t.1 ≤ p.1 then p else t) := by
  induction l with
  | nil => simp [multimapInsert]
  | cons q rest ih =>
    rcases List.pairwise_cons.mp h with ⟨hq, hrest⟩
    unfold multimapInsert
    split
    case isTrue hle =>
      rw [getLast?_cons_of_ne_nil _ _ (multimapInsert_ne_nil p rest), ih hrest]
      cases rest with
      | nil => simp [hle]
      | cons r rs =>
        rw [getLast?_cons_of_ne_nil q (r :: rs) (by simp)]
    case isFalse hgt =>
      rw [List.getLast?_cons_cons]
      have hsome : (q :: rest).getLast?.isSome := List.getLast?_isSome.mpr (by simp)
      obtain ⟨t, ht⟩ := Option.isSome_iff_exists.mp hsome
      rw [ht]
      have htmem : t ∈ q :: rest := List.mem_of_getLast?_eq_some ht
      have htge : q.1 ≤ t.1 := by
        rcases List.mem_cons.mp htmem with rfl | hm
        · exact le_refl _
        · exact hq t hm
      have hnt : ¬t.1 ≤ p.1 := fun hc => hgt (le_trans htge hc)
      simp [hnt]

/-- Folding the enumeration into the score multimap and reading
`rbegin()` is the best-so-far fold with the `≥` replacement rule. -/
theorem fold_multimap_getLast (devs : List PhysicalDevice) :
    ∀ acc, List.Pairwise (fun a b => a.1 ≤ b.1) acc →
    (devs.foldl (fun m d => multimapInsert (ratePhysicalDevice d, d) m) acc).getLast? =
      devs.foldl (fun b d => match b with
        | none => some (ratePhysicalDevice d, d)
        | some t => some (selectStep t d)) acc.getLast? := by
  induction devs with
  | nil => intro acc hacc; rfl
  | cons d rest ih =>
    intro acc hacc
    simp only [List.foldl_cons]
    rw [ih _ (multimapInsert_sorted _ _ hacc)]
    congr 1
    rw [multimapInsert_getLast _ _ hacc]
    cases acc.getLast? with
    | none => rfl
    | some t => simp [selectStep]

theorem foldl_selectStep_some (devs : List PhysicalDevice) :
    ∀ q, devs.foldl (fun b d => match b with
      | none => some (ratePhysicalDevice d, d)
      | some t => some (selectStep t d)) (some q) = some (devs.foldl selectStep q) := by
  induction devs with
  | nil => intro q; rfl
  | cons d rest ih => intro q; simp only [List.foldl_cons]; exact ih (selectStep q d)

theorem foldl_max_init (devs : List PhysicalDevice) :
    ∀ a : Nat, devs.foldl (fun x d => max x (ratePhysicalDevice d)) a = max a (maxScore devs) := by
  induction devs with
  | nil => intro a; simp [maxScore]
  | cons d rest ih =>
    intro a
    have hcons : maxScore (d :: rest) = max (max 0 (ratePhysicalDevice d)) (maxScore rest) := by
      unfold maxScore
      rw [List.foldl_cons]
      exact ih (max 0 (ratePhysicalDevice d))
    rw [List.foldl_cons, ih (max a (ratePhysicalDevice d)), hcons]
    omega

theorem maxScore_cons (d : PhysicalDevice) (rest : List PhysicalDevice) :
    maxScore (d :: rest) = max (ratePhysicalDevice d) (maxScore rest) := by
  have h0 : maxScore (d :: rest) =
      rest.foldl (fun x y => max x (ratePhysicalDevice y)) (max 0 (ratePhysicalDevice d)) := rfl
  rw [h0, foldl_max_init]
  omega

theorem rate_le_maxScore (d : PhysicalDevice) (devs : List PhysicalDevice) (h : d ∈ devs) :
    ratePhysicalDevice d ≤ maxScore devs := by
  induction devs with
  | nil => cases h
  | cons x rest ih =>
    rw [maxScore_cons]
    rcases List.mem_cons.mp h with rfl | hm
    · exact le_max_left _ _
    · exact le_trans (ih hm) (le_max_right _ _)

theorem maxScore_attained (devs : List PhysicalDevice) (h : devs ≠ []) :
    ∃ d ∈ devs, ratePhysicalDevice d = maxScore devs := by
  induction devs with
  | nil => cases h rfl
  | cons x rest ih =>
    rw [maxScore_cons]
    by_cases hr : rest = []
    · subst hr
      exact ⟨x, by simp, by simp [maxScore]⟩
    · obtain ⟨d, hd, hde⟩ := ih hr
      by_cases hc : maxScore rest ≤ ratePhysicalDevice x
      · exact ⟨x, by simp, by omega⟩
      · exact ⟨d, by simp [hd], by omega⟩

theorem selectStep_eq (t : Nat × PhysicalDevice) (d : PhysicalDevice) :
    selectStep t d =
      if t.1 ≤ ratePhysicalDevice d then (ratePhysicalDevice d, d) else t := rfl

theorem foldl_selectStep_fst (devs : List PhysicalDevice) :
    ∀ q, (devs.foldl selectStep q).1 = max q.1 (maxScore devs) := by
  induction devs with
  | nil => intro q; simp [maxScore]
  | cons d rest ih =>
    intro q
    simp only [List.foldl_cons]
    rw [ih (selectStep q d), maxScore_cons]
    have hstep : (selectStep q d).1 = max q.1 (ratePhysicalDevice d) := by
      unfold selectStep; split <;> omega
    rw [hstep]
    omega

/-- The best-so-far fold lands on the last element whose score equals the
final maximum (or stays at its seed when nothing reaches the seed's
score). -/
theorem foldl_selectStep_filter (devs : List PhysicalDevice) (q : Nat × PhysicalDevice) :
    (devs.filter (fun x => ratePhysicalDevice x = (devs.foldl selectStep q).1)).getLast?
        = some (devs.foldl selectStep q).2
    ∨ (devs.foldl selectStep q = q ∧
        devs.filter (fun x => ratePhysicalDevice x = (devs.foldl selectStep q).1) = []) := by
  induction devs using List.reverseRecOn with
  | nil => right; exact ⟨rfl, rfl⟩
  | append_singleton devs d ih =>
    rw [List.foldl_append, List.foldl_cons, List.foldl_nil] at *
    by_cases hle : (devs.foldl selectStep q).1 ≤ ratePhysicalDevice d
    · have hsel : selectStep (devs.foldl selectStep q) d = (ratePhysicalDevice d, d) := by
        rw [selectStep_eq, if_pos hle]
      rw [hsel]
      left
      rw [List.filter_append]
      simp only [List.filter_cons, List.filter_nil]
      rw [if_pos (by simp)]
      exact List.getLast?_concat _
    · have hsel : selectStep (devs.foldl selectStep q) d = devs.foldl selectStep q := by
        rw [selectStep_eq, if_neg hle]
      rw [hsel]
      have hfil : (devs ++ [d]).filter
          (fun x => ratePhysicalDevice x = (devs.foldl selectStep q).1)
          = devs.filter (fun x => ratePhysicalDevice x = (devs.foldl selectStep q).1) := by
        rw [List.filter_append]
        simp only [List.filter_cons, List.filter_nil]
        rw [if_neg (by simp; omega)]
        simp
      rw [hfil]
      exact ih

/-- The multimap of a nonempty enumeration has as final entry the maximum
score paired with the last device attaining it. -/
theorem pick_selects (devs : List PhysicalDevice) (h : devs ≠ []) :
    ∃ s d, (devs.foldl (fun m x => multimapInsert (ratePhysicalDevice x, x) m) []).getLast?
        = some (s, d) ∧ s = maxScore devs ∧
      (devs.filter (fun x => ratePhysicalDevice x = maxScore devs)).getLast? = some d := by
  obtain ⟨d0, rest, rfl⟩ := List.exists_cons_of_ne_nil h
  rw [fold_multimap_getLast _ [] List.Pairwise.nil]
  simp only [List.getLast?_nil, List.foldl_cons]
  rw [foldl_selectStep_some]
  have hfst : (rest.foldl selectStep (ratePhysicalDevice d0, d0)).1 = maxScore (d0 :: rest) := by
    rw [foldl_selectStep_fst, maxScore_cons]
  refine ⟨(rest.foldl selectStep (ratePhysicalDevice d0, d0)).1,
    (rest.foldl selectStep (ratePhysicalDevice d0, d0)).2, by simp, hfst, ?_⟩
  rcases foldl_selectStep_filter rest (ratePhysicalDevice d0, d0) with hlast | ⟨heqq, hemp⟩
  · rw [← hfst, List.filter_cons]
    split
    · rw [getLast?_cons_of_ne_nil _ _ (by intro hc; rw [hc] at hlast; simp at hlast)]
      exact hlast
    · exact hlast
  · have hfst0 : (rest.foldl selectStep (ratePhysicalDevice d0, d0)).1 = ratePhysicalDevice d0 := by
      rw [heqq]
    rw [← hfst, List.filter_cons, if_pos (by simp [hfst0]), hemp, heqq]
    simp

/-- C1: whenever the maximum score is positive, the Selector succeeds and
returns exactly the device that appears last in enumeration order among
those attaining the maximum score — in particular, on a tie the later
device wins, and a unique maximum is selected itself. -/
theorem pickPhysicalDevice_selects_last_max (physicalDevices : List PhysicalDevice)
    (h : 0 < maxScore physicalDevices) :
    ∃ d, pickPhysicalDevice physicalDevices = .ok d ∧
      (physicalDevices.filter
        (fun x => ratePhysicalDevice x = maxScore physicalDevices)).getLast? = some d := by
  have hne : physicalDevices ≠ [] := by
    intro hc; subst hc; simp [maxScore] at h
  obtain ⟨s, d, hlast, hs, hfilter⟩ := pick_selects physicalDevices hne
  refine ⟨d, ?_, hfilter⟩
  unfold pickPhysicalDevice
  rw [if_neg (by simp [List.isEmpty_iff]; exact hne)]
  dsimp only
  rw [hlast]
  dsimp only
  rw [if_pos (by omega)]

/-- C1 witness: two devices tie at score 9192; the second is selected. -/
theorem pickPhysicalDevice_selects_last_max_witness :
    0 < maxScore [deviceA, deviceA2] ∧
    ∃ d, pickPhysicalDevice [deviceA, deviceA2] = .ok d ∧
      ([deviceA, deviceA2].filter
        (fun x => ratePhysicalDevice x = maxScore [deviceA, deviceA2])).getLast? = some d :=
  ⟨by decide, pickPhysicalDevice_selects_last_max [deviceA, deviceA2] (by decide)⟩

/-- C5: `NoDeviceDetected` is raised iff the enumeration is empty;
`NoSuitableDevice` iff at least one device is enumerated and all score 0;
if some device scores above 0 the Selector succeeds. -/
theorem pickPhysicalDevice_error_characterisation (physicalDevices : List PhysicalDevice) :
    (pickPhysicalDevice physicalDevices = .error .NoDeviceDetected ↔ physicalDevices = []) ∧
    (pickPhysicalDevice physicalDevices = .error .NoSuitableDevice ↔
      (physicalDevices ≠ [] ∧ ∀ d ∈ physicalDevices, ratePhysicalDevice d = 0)) ∧
    ((∃ d ∈ physicalDevices, 0 < ratePhysicalDevice d) →
      ∃ d, pickPhysicalDevice physicalDevices = .ok d) := by
  by_cases hne : physicalDevices = []
  · subst hne
    refine ⟨by simp [pickPhysicalDevice], by simp [pickPhysicalDevice], ?_⟩
    rintro ⟨d, hd, _⟩
    cases hd
  · obtain ⟨s, d, hlast, hs, hfilter⟩ := pick_selects physicalDevices hne
    have hform : pickPhysicalDevice physicalDevices =
        if 0 < s then .ok d else .error .NoSuitableDevice := by
      unfold pickPhysicalDevice
      rw [if_neg (by simp [List.isEmpty_iff]; exact hne)]
      dsimp only
      rw [hlast]
    by_cases hpos : 0 < s
    · rw [hform, if_pos hpos]
      refine ⟨by simp [hne], ?_, fun _ => ⟨d, rfl⟩⟩
      constructor
      · intro hc; simp at hc
      · rintro ⟨_, hall⟩
        obtain ⟨x, hx, hxe⟩ := maxScore_attained physicalDevices hne
        rw [hall x hx] at hxe
        omega
    · rw [hform, if_neg hpos]
      have hzero : ∀ x ∈ physicalDevices, ratePhysicalDevice x = 0 := by
        intro x hx
        have := rate_le_maxScore x physicalDevices hx
        omega
      refine ⟨by simp [hne], by exact iff_of_true rfl ⟨hne, hzero⟩, ?_⟩
      rintro ⟨x, hx, hxpos⟩
      rw [hzero x hx] at hxpos
      omega

/-- C5 witness: a single hard-requirement-failing device yields
`NoSuitableDevice`, and an enumeration containing a positively scored
device succeeds. -/
theorem pickPhysicalDevice_error_characterisation_witness :
    (pickPhysicalDevice [deviceNoGeom] = .error .NoSuitableDevice ↔
      (([deviceNoGeom] : List PhysicalDevice) ≠ [] ∧
        ∀ d ∈ [deviceNoGeom], ratePhysicalDevice d = 0)) ∧
    ∃ d, pickPhysicalDevice [deviceA] = .ok d :=
  ⟨(pickPhysicalDevice_error_characterisation [deviceNoGeom]).2.1,
    (pickPhysicalDevice_error_characterisation [deviceA]).2.2 (by decide)⟩

/-! ### Candidate Scorer theorems -/

/-- C3: the Candidate Scorer returns 0 whenever any hard requirement
fails — no geometry shader, incomplete queue-family indices, missing
required device extension, or an empty surface-format or
presentation-mode list — regardless of every other field. -/
theorem ratePhysicalDevice_zero_of_hard_requirement_failure (d : PhysicalDevice)
    (h : d.features.geometryShader = false ∨
      (findQueueFamilies d.queueFamilies).isComplete = false ∨
      checkPhysicalDeviceExtensionSupport requestedDeviceExtensions d.availableExtensions = false ∨
      (querySwapChainSupport d).formats = [] ∨
      (querySwapChainSupport d).presentModes = []) :
    ratePhysicalDevice d = 0 := by
  unfold ratePhysicalDevice
  rcases h with h | h | h | h | h <;> simp [h]

/-- C3 witness: a device lacking the geometry-shader feature scores 0. -/
theorem ratePhysicalDevice_zero_of_hard_requirement_failure_witness :
    (deviceNoGeom.features.geometryShader = false ∨
      (findQueueFamilies deviceNoGeom.queueFamilies).isComplete = false ∨
      checkPhysicalDeviceExtensionSupport requestedDeviceExtensions
        deviceNoGeom.availableExtensions = false ∨
      (querySwapChainSupport deviceNoGeom).formats = [] ∨
      (querySwapChainSupport deviceNoGeom).presentModes = []) ∧
    ratePhysicalDevice deviceNoGeom = 0 :=
  ⟨Or.inl (by decide),
    ratePhysicalDevice_zero_of_hard_requirement_failure deviceNoGeom (Or.inl (by decide))⟩

/-- C4: a device passing every hard requirement scores exactly the
discrete-GPU bonus (1000, else 0) plus its `maxImageDimension2D` limit;
the spec §8 scenario follows: discrete A with limit 8192 scores 9192,
integrated B with limit 16384 scores 16384, and the Selector picks B. -/
theorem ratePhysicalDevice_score_formula_and_scenario :
    (∀ d : PhysicalDevice, meetsHardRequirements d = true →
      ratePhysicalDevice d =
        (if d.properties.deviceType = VK_PHYSICAL_DEVICE_TYPE_DISCRETE_GPU then 1000 else 0)
          + d.properties.limits.maxImageDimension2D) ∧
    ratePhysicalDevice deviceA = 9192 ∧
    ratePhysicalDevice deviceB = 16384 ∧
    pickPhysicalDevice [deviceA, deviceB] = .ok deviceB := by
  refine ⟨?_, by decide, by decide, rfl⟩
  intro d hd
  unfold meetsHardRequirements at hd
  simp only [Bool.and_eq_true] at hd
  obtain ⟨⟨⟨⟨hg, hc⟩, he⟩, hf⟩, hp⟩ := hd
  rw [Bool.not_eq_true'] at hf hp
  unfold ratePhysicalDevice
  simp [hg, hc, he, hf, hp]

/-- C4 witness: device A meets every hard requirement and its score
matches the formula. -/
theorem ratePhysicalDevice_score_formula_and_scenario_witness :
    meetsHardRequirements deviceA = true ∧
    ratePhysicalDevice deviceA =
      (if deviceA.properties.deviceType = VK_PHYSICAL_DEVICE_TYPE_DISCRETE_GPU then 1000 else 0)
        + deviceA.properties.limits.maxImageDimension2D :=
  ⟨by decide, ratePhysicalDevice_score_formula_and_scenario.1 deviceA (by decide)⟩

/-! ### Logical Device Factory theorem -/

/-- C6: for resolved indices, the Logical Device Factory requests exactly
the deduplicated set of the two family indices — one queue per unique
family, count 1, priority 1.0, default features — so equal families yield
a single request, and both role queue handles come from the resolved
families (queue index 0). -/
theorem createLogicalDevice_unique_queue_requests (indices : QueueFamilyIndices)
    (_h : indices.isComplete = true) :
    ((createLogicalDevice indices).queueCreateInfos.map
      (fun q => q.queueFamilyIndex)).Nodup ∧
    (∀ x : Int,
      x ∈ (createLogicalDevice indices).queueCreateInfos.map (fun q => q.queueFamilyIndex) ↔
        (x = indices.graphicsFamily ∨ x = indices.presentFamily)) ∧
    (∀ q ∈ (createLogicalDevice indices).queueCreateInfos,
      q.queueCount = 1 ∧ q.queuePriority = 1) ∧
    (createLogicalDevice indices).enabledFeatures = {} ∧
    (indices.graphicsFamily = indices.presentFamily →
      (createLogicalDevice indices).queueCreateInfos.length = 1) ∧
    (createLogicalDevice indices).graphicsQueue = (indices.graphicsFamily, 0) ∧
    (createLogicalDevice indices).presentQueue = (indices.presentFamily, 0) := by
  unfold createLogicalDevice uniqueQueueFamilies
  by_cases heq : indices.graphicsFamily = indices.presentFamily
  · refine ⟨by simp [heq], ?_, by simp, rfl, by simp [heq], rfl, rfl⟩
    intro x
    simp [heq]
  · by_cases hlt : indices.graphicsFamily < indices.presentFamily
    · refine ⟨by simp [heq, hlt], ?_, by simp [heq, hlt], rfl, fun hc => absurd hc heq,
        rfl, rfl⟩
      intro x
      simp [heq, hlt]
    · refine ⟨by simp [heq, hlt, Ne.symm heq], ?_, by simp [heq, hlt], rfl,
        fun hc => absurd hc heq, rfl, rfl⟩
      intro x
      simp [heq, hlt]
      tauto

/-- C6 witness: equal resolved families produce a single queue request. -/
theorem createLogicalDevice_unique_queue_requests_witness :
    (QueueFamilyIndices.mk 0 0).isComplete = true ∧
    (QueueFamilyIndices.mk 0 0).graphicsFamily = (QueueFamilyIndices.mk 0 0).presentFamily ∧
    (createLogicalDevice ⟨0, 0⟩).queueCreateInfos.length = 1 :=
  ⟨by decide, by decide,
    (createLogicalDevice_unique_queue_requests ⟨0, 0⟩ (by decide)).2.2.2.2.1 (by decide)⟩

/-! ### Capability Negotiator theorems -/

theorem checkValidationLayerSupport_iff (availableLayers : List String) :
    checkValidationLayerSupport availableLayers = true ↔
      ∀ r ∈ requestedLayers, r ∈ availableLayers := by
  unfold checkValidationLayerSupport
  simp [List.all_eq_true, List.any_eq_true]

/-- C7: with the driver's available-layer and available-extension lists
arbitrary, `createInstance` fails with `UnsupportedLayer` whenever a
requested validation layer is missing, and (layers present) with
`UnsupportedExtension` whenever a requested instance extension is
missing; in both cases the `vkCreateInstance` call is never issued (the
flag is `false`). -/
theorem createInstance_capability_failures (env : InstanceEnv) :
    ((∃ l ∈ requestedLayers, l ∉ env.availableLayers) →
      createInstance env = (.error .UnsupportedLayer, false)) ∧
    ((∀ l ∈ requestedLayers, l ∈ env.availableLayers) →
      (∃ e ∈ requestedInstanceExtensions env.glfwRequiredExtensions,
        e ∉ env.availableInstanceExtensions) →
      createInstance env = (.error .UnsupportedExtension, false)) := by
  constructor
  · rintro ⟨l, hl, hnot⟩
    unfold createInstance
    rw [if_pos]
    have hfalse : checkValidationLayerSupport env.availableLayers = false := by
      rw [← Bool.not_eq_true, checkValidationLayerSupport_iff]
      intro hall
      exact hnot (hall l hl)
    simp [enableValidationLayers, hfalse]
  · rintro hall ⟨e, he, hnot⟩
    unfold createInstance
    rw [if_neg (by simp [checkValidationLayerSupport_iff]; exact fun _ => hall)]
    have hext : getRequestedExtensions env.availableInstanceExtensions
        env.glfwRequiredExtensions = .error .UnsupportedExtension := by
      unfold getRequestedExtensions
      rw [if_neg]
      intro hc
      rw [List.all_eq_true] at hc
      have hce := hc e he
      simp only [List.any_eq_true, decide_eq_true_eq] at hce
      obtain ⟨a, ha, rfl⟩ := hce
      exact hnot ha
    rw [hext]

/-- C7 witness: an empty available-layer list triggers `UnsupportedLayer`
with no creation call issued. -/
theorem createInstance_capability_failures_witness :
    (∃ l ∈ requestedLayers, l ∉ (InstanceEnv.mk [] [] [] true).availableLayers) ∧
    createInstance ⟨[], [], [], true⟩ = (.error .UnsupportedLayer, false) :=
  ⟨by decide, (createInstance_capability_failures ⟨[], [], [], true⟩).1 (by decide)⟩

/-! ### Device Extension Validator theorem -/

theorem foldl_erase_eq_filter (available : List String) :
    ∀ s : List String, s.Nodup →
      available.foldl (fun t a => t.erase a) s = s.filter (fun x => !available.contains x) := by
  induction available with
  | nil => intro s hs; simp
  | cons a rest ih =>
    intro s hs
    rw [List.foldl_cons, ih (s.erase a) (List.Nodup.erase a hs),
      List.Nodup.erase_eq_filter hs a, List.filter_filter]
    congr 1
    funext x
    simp only [List.contains_cons, Bool.not_or]
    cases hxa : x == a <;> cases hxr : rest.contains x <;> simp [bne, hxa, hxr]

/-- C8: the Device Extension Validator answers `true` exactly when the
set difference "required minus available on the device" is empty. -/
theorem checkPhysicalDeviceExtensionSupport_iff_sdiff_empty
    (required availableExtensions : List String) :
    checkPhysicalDeviceExtensionSupport required availableExtensions = true ↔
      required.toFinset \ availableExtensions.toFinset = ∅ := by
  unfold checkPhysicalDeviceExtensionSupport
  rw [foldl_erase_eq_filter _ _ (List.nodup_dedup required)]
  rw [List.isEmpty_iff, List.filter_eq_nil_iff]
  constructor
  · intro h
    rw [Finset.eq_empty_iff_forall_not_mem]
    rintro x hx
    rw [Finset.mem_sdiff, List.mem_toFinset, List.mem_toFinset] at hx
    obtain ⟨hreq, hnav⟩ := hx
    have := h x (List.mem_dedup.mpr hreq)
    simp only [Bool.not_eq_true', Bool.not_eq_false] at this
    exact hnav (List.elem_iff.mp this)
  · intro h x hx
    have hreq : x ∈ required := List.mem_dedup.mp hx
    have : x ∈ availableExtensions := by
      by_contra hnav
      have : x ∈ required.toFinset \ availableExtensions.toFinset := by
        rw [Finset.mem_sdiff, List.mem_toFinset, List.mem_toFinset]
        exact ⟨hreq, hnav⟩
      rw [h] at this
      exact absurd this (Finset.not_mem_empty x)
    simp
    exact this

/-! ### Teardown ordering theorems -/

/-- C9, counterexample: the release order of `cleanup` is *not* the exact
reverse of the acquisition order — exact reverse would release the
surface before the debug sink, but `cleanup` destroys the debug sink
first. -/
theorem cleanupReleaseOrder_ne_reverse_acquisition :
    cleanupReleaseOrder ≠ initVulkanAcquisitionOrder.reverse := by decide

/-- C9 amended: on the successful full-completion path, `cleanup`
releases the logical device first, then the debug sink, then the surface,
then the context — every acquired resource exactly once (a permutation of
the reversed acquisition order), deviating from exact reverse order only
in that the debug sink is released before the surface. -/
theorem cleanupReleaseOrder_characterisation :
    cleanupReleaseOrder = [.logicalDevice, .debugSink, .surface, .context] ∧
    cleanupReleaseOrder.Perm initVulkanAcquisitionOrder.reverse :=
  ⟨rfl, by decide⟩

end VulkanTest
